import Mathlib

set_option maxHeartbeats 1000000

namespace MssqlMcp

/-- ASCII lowercase of one character, mirroring JavaScript toLowerCase on the
ASCII range (the only range exercised by the configuration data). -/
def lowerChar (c : Char) : Char :=
  if c.toNat ≥ 65 ∧ c.toNat ≤ 90 then Char.ofNat (c.toNat + 32) else c

/-- Lowercase a whole string characterwise. -/
def lowerStr (s : String) : String :=
  String.mk (s.data.map lowerChar)

/-- Does the first list start with the second one (JavaScript startsWith)? -/
def startsWithL : List Char → List Char → Bool
  | _, [] => true
  | [], _ :: _ => false
  | c :: cs, d :: ds => c == d && startsWithL cs ds

/-- Does the first list contain the second as a contiguous run
(JavaScript String.includes)? -/
def containsL : List Char → List Char → Bool
  | [], ds => ds.isEmpty
  | c :: cs, ds => startsWithL (c :: cs) ds || containsL cs ds

/-- JavaScript s.includes(sub). -/
def strIncludes (s sub : String) : Bool :=
  containsL s.data sub.data

/-- JavaScript s.startsWith(p). -/
def strStartsWith (s p : String) : Bool :=
  startsWithL s.data p.data

/-- Characters stripped by JavaScript String.trim (ASCII whitespace range). -/
def isTrimWs (c : Char) : Bool :=
  c == ' ' || c == '\t' || c == '\n' || c == '\r' ||
    c.toNat == 11 || c.toNat == 12

/-- JavaScript String.trim on the character list. -/
def trimL (cs : List Char) : List Char :=
  ((cs.dropWhile isTrimWs).reverse.dropWhile isTrimWs).reverse

/-- JavaScript String.trim. -/
def trimStr (s : String) : String :=
  String.mk (trimL s.data)

/-- Case-insensitive string equality, as written in the source via
a.toLowerCase() === b.toLowerCase(). -/
def eqIgnoreCase (a b : String) : Bool :=
  lowerStr a == lowerStr b

-- ───────────────────────────────────────────────────────────────────────────
-- Data model: EnvironmentConfig (src/src/node/src/config/EnvironmentManager.ts)
-- ───────────────────────────────────────────────────────────────────────────

/-- accessLevel field of an environment. -/
inductive AccessLevel
  | server
  | database
deriving DecidableEq

/-- allowedDatabases is either the wildcard string "*" or an array of names. -/
inductive AllowedDatabases
  | star
  | list (dbs : List String)
deriving DecidableEq

/-- EnvironmentConfig from EnvironmentManager.ts. Optional TypeScript fields
are Options; fields irrelevant to the verified operations (port, username,
password, domain, trustServerCertificate, connectionTimeout, description,
allowedSchemas, deniedSchemas, tier) are elided. -/
structure EnvironmentConfig where
  name : String
  server : String := ""
  database : String := ""
  readonly : Option Bool := none
  allowedTools : Option (List String) := none
  deniedTools : Option (List String) := none
  maxRowsDefault : Option Nat := none
  requireApproval : Option Bool := none
  auditLevel : Option String := none
  accessLevel : Option AccessLevel := none
  allowedDatabases : Option AllowedDatabases := none
  deniedDatabases : Option (List String) := none
deriving DecidableEq

/-- The registry state of EnvironmentManager: the insertion-ordered
environments map (names are unique, as in a JavaScript Map keyed by name)
and the optional default environment name. -/
structure EnvManagerState where
  environments : List EnvironmentConfig
  defaultEnvironment : Option String := none

/-- JavaScript truthiness of an optional string: undefined and the empty
string are falsy.  Used for the name-fallback chains in the source. -/
def orElseStr (a : Option String) (b : String) : String :=
  match a with
  | some s => if s == "" then b else s
  | none => b

/-- EnvironmentManager.getEnvironment: resolve a name (with the
name-or-default-or-"default" fallback chain) in the environments map, throwing
when the resolved name is unknown. -/
def getEnvironment (mgr : EnvManagerState) (name : Option String) :
    Except String EnvironmentConfig :=
  let targetName := orElseStr name (orElseStr mgr.defaultEnvironment "default")
  match mgr.environments.find? (fun e => e.name == targetName) with
  | some env => Except.ok env
  | none => Except.error ("Environment not found: " ++ targetName)

/-- Result record of the allow/deny checks: allowed flag plus an optional
reason (the human-readable reason strings of the source are elided; the flag
records which branch produced the result). -/
structure AllowResult where
  allowed : Bool
  reason : Option String := none
deriving DecidableEq

/-- EnvironmentManager.isDatabaseAllowed on a resolved environment.
For database-level access (the default when accessLevel is absent) only the
configured database is allowed, compared case-insensitively.  For
server-level access the denied list is checked first (case-insensitively),
then the allowed list: the wildcard "*" allows everything, a non-empty array
requires case-insensitive membership, and an absent or empty array allows. -/
def isDatabaseAllowedEnv (env : EnvironmentConfig) (databaseName : String) :
    AllowResult :=
  let accessLevel := env.accessLevel.getD AccessLevel.database
  if accessLevel = AccessLevel.database then
    if ¬ (lowerStr databaseName == lowerStr env.database) then
      { allowed := false, reason := some "database-level access restriction" }
    else
      { allowed := true }
  else
    let deniedDatabases := env.deniedDatabases.getD []
    let allowedDatabases := env.allowedDatabases
    if deniedDatabases.any (fun db => lowerStr db == lowerStr databaseName) then
      { allowed := false, reason := some "denied list" }
    else if allowedDatabases = some AllowedDatabases.star then
      { allowed := true }
    else
      match allowedDatabases with
      | some (AllowedDatabases.list dbs) =>
        if dbs.length > 0 ∧
            ¬ dbs.any (fun db => lowerStr db == lowerStr databaseName) then
          { allowed := false, reason := some "not in allowed list" }
        else
          { allowed := true }
      | _ => { allowed := true }

/-- EnvironmentManager.isDatabaseAllowed: resolve the environment name first,
then run the per-environment check. -/
def isDatabaseAllowed (mgr : EnvManagerState) (environmentName : Option String)
    (databaseName : String) : Except String AllowResult :=
  (getEnvironment mgr environmentName).map
    (fun env => isDatabaseAllowedEnv env databaseName)

-- ───────────────────────────────────────────────────────────────────────────
-- Secret resolution (EnvironmentManager.ts, resolveSecrets)
-- ───────────────────────────────────────────────────────────────────────────

/-- The opening brace character. -/
def obrace : Char := Char.ofNat 123

/-- The closing brace character. -/
def cbrace : Char := Char.ofNat 125

/-- The literal placeholder opener dollar-obrace-secret-colon that begins
every secret placeholder in the regex of resolveSecrets. -/
def phOpen : List Char := ['$', obrace, 's', 'e', 'c', 'r', 'e', 't', ':']

/-- Split a character list at the first closing brace: returns the characters
before it and the characters after it, or none when no closing brace exists.
This is how the greedy one-or-more-non-brace group of the placeholder regex
finds the end of a secret name. -/
def braceSplit (cs : List Char) : Option (List Char × List Char) :=
  match cs.dropWhile (fun d => !(d == cbrace)) with
  | [] => none
  | _ :: t2 => some (cs.takeWhile (fun d => !(d == cbrace)), t2)

/-- dropWhile never lengthens a list (termination helper). -/
def dropWhile_len_le (p : Char → Bool) :
    ∀ cs : List Char, (cs.dropWhile p).length ≤ cs.length := by
  intro cs
  induction cs with
  | nil => simp [List.dropWhile]
  | cons c cs ih =>
    by_cases h : p c = true
    · rw [List.dropWhile_cons_of_pos h]
      simpa using Nat.le_succ_of_le ih
    · rw [List.dropWhile_cons_of_neg h]

/-- When braceSplit succeeds, the remainder after the brace is strictly
shorter than the input (termination helper). -/
def braceSplit_len {cs name t2 : List Char}
    (h : braceSplit cs = some (name, t2)) : t2.length < cs.length := by
  unfold braceSplit at h
  cases hdw : cs.dropWhile (fun d => !(d == cbrace)) with
  | nil => rw [hdw] at h; exact absurd h (by simp)
  | cons d rest =>
    rw [hdw] at h
    have ht : t2 = rest := by
      have := congrArg (fun o => Option.map Prod.snd o) h
      simpa using this.symm
    subst ht
    have h1 : t2.length < (d :: t2).length := by simp
    have h2 : (d :: t2).length ≤ cs.length := by
      rw [← hdw]; exact dropWhile_len_le _ cs
    omega

/-- The replacement scanner modelling
value.replace(secretPattern, fn) in resolveSecrets, where secretPattern is
the global regex matching the placeholder opener, then one or more non-brace
characters (the secret name), then a closing brace.  The scan proceeds left
to right; at each position a placeholder match is attempted, and on failure
one character is emitted and the scan advances, exactly as the regex engine
advances after a failed match attempt.  On a match, a name set in the process
environment is replaced by its value and an unset name leaves the matched
placeholder text verbatim. -/
def resolveSecretsAux (env : String → Option String) : List Char → List Char
  | [] => []
  | c :: rest =>
    if startsWithL (c :: rest) phOpen then
      match h : braceSplit (rest.drop 8) with
      | some (name, t2) =>
        if name.isEmpty then
          c :: resolveSecretsAux env rest
        else
          match env (String.mk name) with
          | some v => v.data ++ resolveSecretsAux env t2
          | none => phOpen ++ name ++ [cbrace] ++ resolveSecretsAux env t2
      | none => c :: resolveSecretsAux env rest
    else
      c :: resolveSecretsAux env rest
termination_by cs => cs.length
decreasing_by
  all_goals first
  | (simp only [List.length_cons]; omega)
  | (have h1 := braceSplit_len h
     simp only [List.length_drop] at h1
     simp only [List.length_cons]
     omega)

/-- resolveSecrets from EnvironmentManager.ts: an undefined value passes
through, and a defined value has its placeholders replaced by the scanner
(an empty string is falsy in JavaScript and is returned unchanged, which
coincides with running the scanner on it). -/
def resolveSecrets (env : String → Option String) :
    Option String → Option String
  | none => none
  | some s =>
    if s == "" then some s
    else some (String.mk (resolveSecretsAux env s.data))

/-- A segment of a configuration value: a literal character, or a secret
placeholder with the given (nonempty, brace-free) name. -/
inductive Seg
  | lit (c : Char)
  | ph (name : List Char)
deriving DecidableEq

/-- The text a segment stands for in the original value. -/
def renderSeg : Seg → List Char
  | Seg.lit c => [c]
  | Seg.ph name => phOpen ++ name ++ [cbrace]

/-- What resolution does to one segment: literal characters are kept, a
placeholder whose name is set in the process environment becomes the value,
and a placeholder whose name is unset is kept verbatim. -/
def resolveSeg (env : String → Option String) : Seg → List Char
  | Seg.lit c => [c]
  | Seg.ph name =>
    match env (String.mk name) with
    | some v => v.data
    | none => phOpen ++ name ++ [cbrace]

/-- Decompose a value into literal characters and the placeholders the
replacement regex would match, scanning left to right exactly like
resolveSecretsAux. -/
def parseSegs : List Char → List Seg
  | [] => []
  | c :: rest =>
    if startsWithL (c :: rest) phOpen then
      match h : braceSplit (rest.drop 8) with
      | some (name, t2) =>
        if name.isEmpty then
          Seg.lit c :: parseSegs rest
        else
          Seg.ph name :: parseSegs t2
      | none => Seg.lit c :: parseSegs rest
    else
      Seg.lit c :: parseSegs rest
termination_by cs => cs.length
decreasing_by
  all_goals first
  | (simp only [List.length_cons]; omega)
  | (have h1 := braceSplit_len h
     simp only [List.length_drop] at h1
     simp only [List.length_cons]
     omega)

-- ───────────────────────────────────────────────────────────────────────────
-- Policy enforcement wrapper (src/src/node/src/index.ts, wrapToolRun)
-- ───────────────────────────────────────────────────────────────────────────

/-- A JSON-ish argument value, carrying exactly the observations the wrapped
code makes of it: string content, boolean value, numeric value, array length
and object key count (hasArgument and truthiness only inspect these). -/
inductive ArgValue
  | str (s : String)
  | num (q : ℚ)
  | boolV (b : Bool)
  | arr (len : Nat)
  | obj (fieldCount : Nat)
  | nullV
deriving DecidableEq

/-- The arguments object of a call: an ordered key-value record
(normalizeArguments has already dropped undefined entries). -/
abbrev Args := List (String × ArgValue)

/-- args[key], none when the key is absent (undefined). -/
def lookupArg (args : Args) (key : String) : Option ArgValue :=
  (args.find? (fun kv => kv.1 == key)).map Prod.snd

/-- typeof args[key] === "string" ? args[key] : undefined. -/
def getStrArg (args : Args) (key : String) : Option String :=
  match lookupArg args key with
  | some (ArgValue.str s) => some s
  | _ => none

/-- args[key] = v: overwrite an existing key or append a new one. -/
def setArg (args : Args) (key : String) (v : ArgValue) : Args :=
  if (args.find? (fun kv => kv.1 == key)).isSome then
    args.map (fun kv => if kv.1 == key then (key, v) else kv)
  else
    args ++ [(key, v)]

/-- JavaScript Array.includes with string equality. -/
def listIncludes (l : List String) (x : String) : Bool :=
  l.any (fun y => y == x)

/-- MUTATING_TOOL_NAMES from index.ts. -/
def MUTATING_TOOL_NAMES : List String :=
  ["insert_data", "delete_data", "update_data",
   "create_table", "create_index", "drop_table"]

/-- APPROVAL_EXEMPT_TOOLS from index.ts. -/
def APPROVAL_EXEMPT_TOOLS : List String :=
  ["list_tables", "list_databases", "list_environments",
   "validate_environment_config", "describe_table", "test_connection",
   "search_schema", "inspect_relationships"]

/-- The policy snapshot built by wrapToolRun from the environment config. -/
structure Policy where
  name : String
  readonly : Bool
  allowedTools : Option (List String)
  deniedTools : Option (List String)
  maxRowsDefault : Option Nat
  requireApproval : Bool
  auditLevel : String
deriving DecidableEq

/-- The policy object literal of wrapToolRun, with the nullish-coalescing
defaults of the source. -/
def buildPolicy (envConfig : EnvironmentConfig) : Policy :=
  { name := envConfig.name
    readonly := envConfig.readonly.getD false
    allowedTools := envConfig.allowedTools
    deniedTools := envConfig.deniedTools
    maxRowsDefault := envConfig.maxRowsDefault
    requireApproval := envConfig.requireApproval.getD false
    auditLevel := envConfig.auditLevel.getD "basic" }

/-- The structured result object a tool run (or a policy rejection) returns.
The human-readable message strings are elided; success, the error code and
the requiresApproval marker are kept. -/
structure RunResult where
  success : Bool
  error : Option String := none
  requiresApproval : Bool := false
deriving DecidableEq

/-- Observable side effects of one wrapped invocation: acquiring a connection
from the registry, invoking the underlying tool run, emitting an audit
record. -/
inductive Effect
  | connect (envName : String)
  | runTool (toolName : String)
  | audit (toolName : String)
deriving DecidableEq

/-- Outcome of one wrapped invocation: the returned structured result (ok) or
the propagated exception (error), together with the ordered side effects. -/
structure WrapOutcome where
  result : Except String RunResult
  effects : List Effect

/-- rawArgs.confirm === true. -/
def confirmFlag (rawArgs : Args) : Bool :=
  lookupArg rawArgs "confirm" == some (ArgValue.boolV true)

/-- The wrapped run installed by wrapToolRun in index.ts.  The two
environment-dependent awaits are parameters: connOutcome is what
environmentManager.getConnection would do and runOutcome is what the
underlying tool run would return (ok) or throw (error).  Every effect the
call performs is recorded in order. -/
def wrapToolRun (mgr : EnvManagerState) (toolName : String) (rawArgs : Args)
    (connOutcome : Except String Unit) (runOutcome : Except String RunResult) :
    WrapOutcome :=
  let requestedEnvironment := getStrArg rawArgs "environment"
  match getEnvironment mgr requestedEnvironment with
  | Except.error e => { result := Except.error e, effects := [] }
  | Except.ok envConfig =>
    let policy := buildPolicy envConfig
    if (match policy.deniedTools with
        | some l => !l.isEmpty && listIncludes l toolName
        | none => false) then
      { result := Except.ok { success := false, error := some "TOOL_DENIED" }
        effects := [] }
    else if (match policy.allowedTools with
        | some l => !l.isEmpty && !listIncludes l toolName
        | none => false) then
      { result := Except.ok
          { success := false, error := some "TOOL_NOT_ALLOWED" }
        effects := [] }
    else if policy.readonly && listIncludes MUTATING_TOOL_NAMES toolName then
      { result := Except.ok
          { success := false, error := some "ENVIRONMENT_READONLY" }
        effects := [] }
    else if policy.requireApproval &&
        !listIncludes APPROVAL_EXEMPT_TOOLS toolName &&
        !confirmFlag rawArgs then
      { result := Except.ok
          { success := false, error := some "APPROVAL_REQUIRED"
            requiresApproval := true }
        effects := [] }
    else
      match connOutcome with
      | Except.error e =>
        { result := Except.error e, effects := [Effect.connect policy.name] }
      | Except.ok _ =>
        match runOutcome with
        | Except.ok r =>
          { result := Except.ok r
            effects := [Effect.connect policy.name, Effect.runTool toolName,
                        Effect.audit toolName] }
        | Except.error e =>
          { result := Except.error e
            effects := [Effect.connect policy.name, Effect.runTool toolName,
                        Effect.audit toolName] }

/-- The four policy rejection kinds. -/
inductive PolicyError
  | toolDenied
  | toolNotAllowed
  | environmentReadonly
  | approvalRequired
deriving DecidableEq

/-- The error code string of a policy rejection. -/
def errCode : PolicyError → String
  | PolicyError.toolDenied => "TOOL_DENIED"
  | PolicyError.toolNotAllowed => "TOOL_NOT_ALLOWED"
  | PolicyError.environmentReadonly => "ENVIRONMENT_READONLY"
  | PolicyError.approvalRequired => "APPROVAL_REQUIRED"

/-- The structured rejection result for a policy error. -/
def rejectResult : PolicyError → RunResult
  | PolicyError.approvalRequired =>
    { success := false, error := some "APPROVAL_REQUIRED"
      requiresApproval := true }
  | e => { success := false, error := some (errCode e) }

/-- Deny check, stated on its own: the tool name is a member of a present,
non-empty deniedTools list. -/
def deniedCheck (policy : Policy) (toolName : String) : Option PolicyError :=
  if (match policy.deniedTools with
      | some l => !l.isEmpty && listIncludes l toolName
      | none => false) then some PolicyError.toolDenied else none

/-- Allow check, stated on its own: allowedTools is present and non-empty and
the tool name is not a member. -/
def allowedCheck (policy : Policy) (toolName : String) : Option PolicyError :=
  if (match policy.allowedTools with
      | some l => !l.isEmpty && !listIncludes l toolName
      | none => false) then some PolicyError.toolNotAllowed else none

/-- Readonly check, stated on its own: the environment is readonly and the
tool is in the static mutating set. -/
def readonlyCheck (policy : Policy) (toolName : String) : Option PolicyError :=
  if policy.readonly && listIncludes MUTATING_TOOL_NAMES toolName then
    some PolicyError.environmentReadonly
  else none

/-- Approval check, stated on its own: approval is required, the tool is not
exempt, and the caller did not pass confirm = true. -/
def approvalCheck (policy : Policy) (toolName : String) (confirm : Bool) :
    Option PolicyError :=
  if policy.requireApproval && !listIncludes APPROVAL_EXEMPT_TOOLS toolName &&
      !confirm then
    some PolicyError.approvalRequired
  else none

/-- The four checks in the order the spec fixes:
deniedTools, allowedTools, readonly, requireApproval. -/
def policyChecks (policy : Policy) (toolName : String) (confirm : Bool) :
    List (Option PolicyError) :=
  [deniedCheck policy toolName, allowedCheck policy toolName,
   readonlyCheck policy toolName, approvalCheck policy toolName confirm]

/-- First failing check of an ordered check list. -/
def firstSome : List (Option PolicyError) → Option PolicyError
  | [] => none
  | some e :: _ => some e
  | none :: rest => firstSome rest

/-- What a wrapped call does after all four policy checks pass: acquire the
connection (propagating a connect exception), then run the tool and audit. -/
def proceedOutcome (envConfig : EnvironmentConfig) (toolName : String)
    (connOutcome : Except String Unit) (runOutcome : Except String RunResult) :
    WrapOutcome :=
  match connOutcome with
  | Except.error e =>
    { result := Except.error e, effects := [Effect.connect envConfig.name] }
  | Except.ok _ =>
    match runOutcome with
    | Except.ok r =>
      { result := Except.ok r
        effects := [Effect.connect envConfig.name, Effect.runTool toolName,
                    Effect.audit toolName] }
    | Except.error e =>
      { result := Except.error e
        effects := [Effect.connect envConfig.name, Effect.runTool toolName,
                    Effect.audit toolName] }

-- ───────────────────────────────────────────────────────────────────────────
-- Intent router (src/src/node/src/index.ts, class IntentRouter)
-- ───────────────────────────────────────────────────────────────────────────

/-- The five intent categories. -/
inductive IntentCategory
  | data_read
  | data_write
  | schema_discovery
  | schema_change
  | metadata
deriving DecidableEq

/-- JavaScript truthiness of an argument value. -/
def truthy : ArgValue → Bool
  | ArgValue.str s => !(s == "")
  | ArgValue.num q => !(q == 0)
  | ArgValue.boolV b => b
  | ArgValue.arr _ => true
  | ArgValue.obj _ => true
  | ArgValue.nullV => false

/-- The ordered intent detectors of inferIntent, highest priority first. -/
def intentDetectors : List (IntentCategory × List String) :=
  [(IntentCategory.schema_change,
    ["create table", "drop table", "create index", "drop index", "alter",
     "ddl"]),
   (IntentCategory.data_write,
    ["update", "insert", "delete", "fix", "modify", "change", "correct"]),
   (IntentCategory.metadata,
    ["profile", "sample", "statistics", "distribution", "quality"]),
   (IntentCategory.schema_discovery,
    ["describe", "columns", "list tables", "show tables", "schema",
     "search"]),
   (IntentCategory.data_read,
    ["select", "query", "fetch", "count", "report", "view"])]

/-- First detector whose keyword set has a keyword contained in the prompt. -/
def findDetector (prompt : String) :
    List (IntentCategory × List String) → Option IntentCategory
  | [] => none
  | (intent, kws) :: rest =>
    if kws.any (fun kw => strIncludes prompt kw) then some intent
    else findDetector prompt rest

/-- extractSqlSnippet: the query argument if it is a string, else the sql
argument if it is a string, trimmed and lowercased; none otherwise. -/
def extractSqlSnippet (args : Args) : Option String :=
  match lookupArg args "query" with
  | some (ArgValue.str s) => some (lowerStr (trimStr s))
  | _ =>
    match lookupArg args "sql" with
    | some (ArgValue.str s) => some (lowerStr (trimStr s))
    | _ => none

/-- The trailing fallback of inferIntent: a truthy tablePattern or
columnPattern argument means schema discovery, else data read. -/
def patternFallback (toolArguments : Args) : IntentCategory :=
  if (match lookupArg toolArguments "tablePattern" with
      | some v => truthy v
      | none => false) ||
     (match lookupArg toolArguments "columnPattern" with
      | some v => truthy v
      | none => false) then
    IntentCategory.schema_discovery
  else IntentCategory.data_read

/-- IntentRouter.inferIntent: keyword detectors by fixed priority, then the
leading SQL verb of an embedded query/sql argument, then the
tablePattern/columnPattern fallback, defaulting to data read. -/
def inferIntent (prompt : String) (toolArguments : Args) : IntentCategory :=
  match findDetector prompt intentDetectors with
  | some intent => intent
  | none =>
    match extractSqlSnippet toolArguments with
    | some s =>
      if !(s == "") then
        if strStartsWith s "select" then IntentCategory.data_read
        else if strStartsWith s "update" || strStartsWith s "delete" then
          IntentCategory.data_write
        else if strStartsWith s "insert" then IntentCategory.data_write
        else if strStartsWith s "create" || strStartsWith s "drop" then
          IntentCategory.schema_change
        else patternFallback toolArguments
      else patternFallback toolArguments
    | none => patternFallback toolArguments

/-- Intent of a leading SQL verb, as the claim words it: the snippet must be
non-empty and start with one of the six verbs. -/
def sqlVerbIntent (s : String) : Option IntentCategory :=
  if s == "" then none
  else if strStartsWith s "select" then some IntentCategory.data_read
  else if strStartsWith s "update" then some IntentCategory.data_write
  else if strStartsWith s "delete" then some IntentCategory.data_write
  else if strStartsWith s "insert" then some IntentCategory.data_write
  else if strStartsWith s "create" then some IntentCategory.schema_change
  else if strStartsWith s "drop" then some IntentCategory.schema_change
  else none

/-- Modelled from the claim wording of C7 (not from the source): detectors in
priority order, then the SQL verb, otherwise data read — with no
tablePattern/columnPattern step. -/
def claimIntentC7 (prompt : String) (toolArguments : Args) : IntentCategory :=
  match findDetector prompt intentDetectors with
  | some intent => intent
  | none =>
    match (extractSqlSnippet toolArguments).bind sqlVerbIntent with
    | some intent => intent
    | none => IntentCategory.data_read

/-- The amended description of inferIntent: detectors by priority, then SQL
verb, then the tablePattern/columnPattern fallback, then data read. -/
def amendedIntentC7 (prompt : String) (toolArguments : Args) :
    IntentCategory :=
  match findDetector prompt intentDetectors with
  | some intent => intent
  | none =>
    match (extractSqlSnippet toolArguments).bind sqlVerbIntent with
    | some intent => intent
    | none => patternFallback toolArguments

-- ───────────────────────────────────────────────────────────────────────────
-- Environment inference (IntentRouter.inferEnvironment)
-- ───────────────────────────────────────────────────────────────────────────

/-- A word character of the regex escape backslash-w: ASCII letters, digits
and underscore. -/
def isWordChar (c : Char) : Bool :=
  (c.toNat ≥ 97 && c.toNat ≤ 122) || (c.toNat ≥ 65 && c.toNat ≤ 90) ||
    (c.toNat ≥ 48 && c.toNat ≤ 57) || c == '_'

/-- Is the character at index i a word character (out of range counts as
non-word)? -/
def isWordAt (cs : List Char) (i : Nat) : Bool :=
  match cs.get? i with
  | some c => isWordChar c
  | none => false

/-- The word-boundary assertion of the regex escape backslash-b at position
i: exactly one of the neighbouring characters is a word character. -/
def wordBoundaryAt (cs : List Char) (i : Nat) : Bool :=
  (if i == 0 then false else isWordAt cs (i - 1)) != isWordAt cs i

/-- One token of the environment-name patterns: a literal character
(compared case-insensitively) or the single-whitespace class of the regex
escape backslash-s.  Every token consumes exactly one character. -/
inductive PTok
  | lit (c : Char)
  | wsp
deriving DecidableEq

/-- Consume a token list against a character list, one character per
token. -/
def matchToks : List PTok → List Char → Bool
  | [], _ => true
  | _ :: _, [] => false
  | PTok.lit c :: ps, d :: ds =>
    (lowerChar c == lowerChar d) && matchToks ps ds
  | PTok.wsp :: ps, d :: ds => isTrimWs d && matchToks ps ds

/-- Search for the token pattern anywhere in the text with word boundaries
on both sides, as the two-sided backslash-b anchored case-insensitive regex
of inferEnvironment does. -/
def regexSearchWB (cs : List Char) (pat : List PTok) : Bool :=
  (List.range (cs.length + 1)).any (fun i =>
    wordBoundaryAt cs i && matchToks pat (cs.drop i) &&
      wordBoundaryAt cs (i + pat.length))

/-- The first pattern of inferEnvironment: the environment name verbatim. -/
def patLit (name : String) : List PTok :=
  name.data.map PTok.lit

/-- The second pattern of inferEnvironment: the environment name with every
dash replaced by the single-whitespace class (name.replace of dash with the
regex escape backslash-s). -/
def patWs (name : String) : List PTok :=
  name.data.map (fun c => if c == '-' then PTok.wsp else PTok.lit c)

/-- The keyword-cluster table of inferEnvironment. -/
def envKeywords : List (String × List String) :=
  [("prod", ["production", "prod", "live"]),
   ("staging", ["staging", "stage", "uat"]),
   ("dev", ["development", "dev", "local"])]

/-- Inner keyword loop of the cluster scan: for each keyword contained in
the prompt, return the first environment whose lowercased name contains the
cluster key, else keep scanning. -/
def clusterScanKw (environments : List EnvironmentConfig) (envSuffix : String)
    (prompt : String) : List String → Option String
  | [] => none
  | kw :: rest =>
    if strIncludes prompt kw then
      match environments.find?
          (fun e => strIncludes (lowerStr e.name) envSuffix) with
      | some e => some e.name
      | none => clusterScanKw environments envSuffix prompt rest
    else clusterScanKw environments envSuffix prompt rest

/-- Outer cluster loop of the cluster scan. -/
def clusterScan (environments : List EnvironmentConfig) (prompt : String) :
    List (String × List String) → Option String
  | [] => none
  | (sfx, kws) :: rest =>
    match clusterScanKw environments sfx prompt kws with
    | some n => some n
    | none => clusterScan environments prompt rest

/-- IntentRouter.inferEnvironment: first the per-environment name scan with
the two word-bounded patterns, then the keyword-cluster fallback. -/
def inferEnvironment (environments : List EnvironmentConfig)
    (prompt : String) : Option String :=
  match environments.find? (fun env =>
      regexSearchWB prompt.data (patLit env.name) ||
      regexSearchWB prompt.data (patWs env.name)) with
  | some env => some env.name
  | none => clusterScan environments prompt envKeywords

/-- All token patterns a name denotes when each dash is treated as optional
whitespace, as the claim words it: each dash may stand for itself, for
nothing, or for one whitespace character. -/
def expandClaim : List Char → List (List PTok)
  | [] => [[]]
  | c :: cs =>
    let rest := expandClaim cs
    if c == '-' then
      rest.map (fun p => PTok.lit '-' :: p) ++ rest ++
        rest.map (fun p => PTok.wsp :: p)
    else rest.map (fun p => PTok.lit c :: p)

/-- Modelled from the claim wording of C8 (not from the source): the name
scan with dashes treated as optional whitespace. -/
def claimNameScanC8 (environments : List EnvironmentConfig)
    (prompt : String) : Option String :=
  (environments.find? (fun env =>
      (expandClaim env.name.data).any
        (fun p => regexSearchWB prompt.data p))).map
    (fun env => env.name)

-- ───────────────────────────────────────────────────────────────────────────
-- Scoring and routing (IntentRouter.scoreTool, IntentRouter.route)
-- ───────────────────────────────────────────────────────────────────────────

/-- The rational with the given numerator and denominator.  Score constants
are built with this rather than with division because the division and
addition of the rational library are marked irreducible; qAdd and qSub below
are proved equal to ordinary addition and subtraction. -/
def qMk (n : Int) (d : Nat) : ℚ :=
  mkRat n d

/-- Kernel-computable rational addition (provably ordinary addition). -/
def qAdd (a b : ℚ) : ℚ :=
  Rat.normalize (a.num * b.den + b.num * a.den) (a.den * b.den)
    (Nat.mul_ne_zero a.den_nz b.den_nz)

/-- Kernel-computable rational subtraction (provably ordinary
subtraction). -/
def qSub (a b : ℚ) : ℚ :=
  Rat.normalize (a.num * b.den - b.num * a.den) (a.den * b.den)
    (Nat.mul_ne_zero a.den_nz b.den_nz)

/-- A score: negative infinity or a rational value. -/
inductive Score
  | negInf
  | val (q : ℚ)
deriving DecidableEq

/-- Strict order on scores; negative infinity is below every value. -/
def scoreLtB : Score → Score → Bool
  | Score.negInf, Score.negInf => false
  | Score.negInf, Score.val _ => true
  | Score.val _, Score.negInf => false
  | Score.val a, Score.val b => decide (a < b)

/-- Non-strict order on scores. -/
def scoreLeB (a b : Score) : Bool :=
  !(scoreLtB b a)

/-- Static routing registration of one tool (ToolRoutingConfig in index.ts;
the runnable tool object itself is represented by its name). -/
structure ToolRoutingConfig where
  name : String
  intents : List IntentCategory
  keywords : Option (List String) := none
  requiredArgs : Option (List String) := none
  mutatesData : Bool := false
  schemaChange : Bool := false
  baseScore : Option ℚ := none
  requiresConfirmation : Bool := false
deriving DecidableEq

/-- A scored candidate (the human-readable reasons array is elided). -/
structure RoutingCandidate where
  config : ToolRoutingConfig
  score : Score
deriving DecidableEq

/-- IntentRouter.hasArgument: absent and null are missing, strings must be
non-blank, arrays non-empty, objects must have keys, anything else counts as
present. -/
def hasArgument (args : Args) (key : String) : Bool :=
  match lookupArg args key with
  | none => false
  | some ArgValue.nullV => false
  | some (ArgValue.str s) => decide ((trimStr s).length > 0)
  | some (ArgValue.arr n) => decide (n > 0)
  | some (ArgValue.obj n) => decide (n > 0)
  | some (ArgValue.boolV _) => true
  | some (ArgValue.num _) => true

/-- IntentRouter.getMissingArguments. -/
def getMissingArguments (config : ToolRoutingConfig) (args : Args) :
    List String :=
  match config.requiredArgs with
  | none => []
  | some l =>
    if l.isEmpty then []
    else l.filter (fun a => !hasArgument args a)

/-- IntentRouter.isToolEligible. -/
def isToolEligible (allowMutations : Bool) (tool : ToolRoutingConfig) :
    Bool :=
  if allowMutations then true
  else !tool.mutatesData && !tool.schemaChange

/-- IntentRouter.scoreTool: accumulate the base score (defaulting to one
half), the intent bonus, the preferred-name bonus, two per keyword contained
in the prompt, and plus or minus one per required argument present or
missing; mutating or schema-changing tools score negative infinity when
mutations are disallowed. -/
def scoreTool (allowMutations : Bool) (config : ToolRoutingConfig)
    (prompt : String) (toolArguments : Args) (inferredIntent : IntentCategory)
    (preferredToolName : Option String) : RoutingCandidate :=
  let score0 : ℚ := config.baseScore.getD (qMk 1 2)
  let score1 :=
    if inferredIntent ∈ config.intents then qAdd score0 (qMk 5 1) else score0
  let score2 :=
    match preferredToolName with
    | some p =>
      if p ≠ "" ∧ config.name = p then qAdd score1 (qMk 3 1) else score1
    | none => score1
  let score3 := (config.keywords.getD []).foldl
    (fun s kw => if strIncludes prompt kw then qAdd s (qMk 2 1) else s) score2
  let score4 := (config.requiredArgs.getD []).foldl
    (fun s a =>
      if hasArgument toolArguments a then qAdd s (qMk 1 1)
      else qSub s (qMk 1 1)) score3
  if (config.mutatesData || config.schemaChange) && !allowMutations then
    { config := config, score := Score.negInf }
  else
    { config := config, score := Score.val score4 }

/-- Head of the stably descending-sorted candidate list: the first candidate
attaining the maximal score (JavaScript sort is stable, so registration
order breaks ties). -/
def selectBest : List RoutingCandidate → Option RoutingCandidate
  | [] => none
  | c :: rest =>
    some (rest.foldl
      (fun best x => if scoreLtB best.score x.score then x else best) c)

/-- The request record of IntentRouter.route. -/
structure RouteParams where
  prompt : String
  toolArguments : Args := []
  confirmIntent : Bool := false
  preferredToolName : Option String := none
  environment : Option String := none

/-- The structured routing result (toolResult and message strings are
elided). -/
structure RouteResult where
  success : Bool
  routedTool : Option String := none
  intent : Option IntentCategory := none
  error : Option String := none
  selectedEnvironment : Option String := none
deriving DecidableEq

/-- The trimmed prompt of a request (route rejects it when empty). -/
def routePrompt (params : RouteParams) : String :=
  trimStr params.prompt

/-- The lowercased trimmed prompt route scores against. -/
def routeNormalizedPrompt (params : RouteParams) : String :=
  lowerStr (routePrompt params)

/-- Resolved environment of a request: the explicit params.environment when
truthy, else inferEnvironment on the normalized prompt. -/
def routeEnvChoice (environments : List EnvironmentConfig)
    (params : RouteParams) : Option String :=
  match params.environment with
  | some s =>
    if s == "" then
      inferEnvironment environments (routeNormalizedPrompt params)
    else some s
  | none => inferEnvironment environments (routeNormalizedPrompt params)

/-- The (normalized) arguments after route writes the resolved environment
into them. -/
def routeToolArguments (environments : List EnvironmentConfig)
    (params : RouteParams) : Args :=
  match routeEnvChoice environments params with
  | some envName =>
    setArg params.toolArguments "environment" (ArgValue.str envName)
  | none => params.toolArguments

/-- The inferred intent of a request. -/
def routeInferredIntent (environments : List EnvironmentConfig)
    (params : RouteParams) : IntentCategory :=
  inferIntent (routeNormalizedPrompt params)
    (routeToolArguments environments params)

/-- The scored candidate list of a request: eligible tools scored, with the
negative-infinity candidates filtered out (the descending stable sort is
modelled by selectBest below). -/
def routeCandidates (environments : List EnvironmentConfig)
    (allowMutations : Bool) (tools : List ToolRoutingConfig)
    (params : RouteParams) : List RoutingCandidate :=
  ((tools.filter (isToolEligible allowMutations)).map (fun t =>
      scoreTool allowMutations t (routeNormalizedPrompt params)
        (routeToolArguments environments params)
        (routeInferredIntent environments params)
        params.preferredToolName)).filter
    (fun c => scoreLtB Score.negInf c.score)

/-- IntentRouter.route.  The delegated tool execution is the runOutcome
parameter (ok for a returned result, error for a thrown exception); the
second component of the output lists the tools actually executed, in
order. -/
def route (environments : List EnvironmentConfig) (allowMutations : Bool)
    (requireConfirmationForMutations : Bool)
    (tools : List ToolRoutingConfig) (params : RouteParams)
    (runOutcome : String → Args → Except String RunResult) :
    RouteResult × List String :=
  if routePrompt params == "" then
    ({ success := false, error := some "MISSING_PROMPT" }, [])
  else
    let confirmIntent := params.confirmIntent
    let environment := routeEnvChoice environments params
    let toolArguments := routeToolArguments environments params
    let inferredIntent := routeInferredIntent environments params
    let candidates := routeCandidates environments allowMutations tools params
    match selectBest candidates with
    | none => ({ success := false, error := some "NO_TOOL_MATCH" }, [])
    | some best =>
      if scoreLeB best.score (Score.val 0) then
        ({ success := false, error := some "NO_TOOL_MATCH" }, [])
      else
        let missingArgs := getMissingArguments best.config toolArguments
        if !missingArgs.isEmpty then
          ({ success := false, routedTool := some best.config.name
             error := some "MISSING_ARGUMENTS" }, [])
        else
          let requiresConfirmation :=
            (best.config.requiresConfirmation || best.config.mutatesData ||
              best.config.schemaChange) && requireConfirmationForMutations
          if requiresConfirmation && !confirmIntent then
            ({ success := false, routedTool := some best.config.name
               error := some "CONFIRMATION_REQUIRED" }, [])
          else
            match runOutcome best.config.name toolArguments with
            | Except.ok _ =>
              ({ success := true, routedTool := some best.config.name
                 intent := some inferredIntent
                 selectedEnvironment := environment }, [best.config.name])
            | Except.error _ =>
              ({ success := false, routedTool := some best.config.name
                 error := some "ROUTED_TOOL_FAILED"
                 selectedEnvironment := environment }, [best.config.name])

/-- The static tool registry of index.ts, in registration order. -/
def toolRegistry : List ToolRoutingConfig :=
  [{ name := "read_data", intents := [IntentCategory.data_read]
     keywords := some ["select", "query", "fetch", "report", "count"]
     requiredArgs := some ["query"], baseScore := some (qMk 2 1) },
   { name := "list_tables", intents := [IntentCategory.schema_discovery]
     keywords := some ["list tables", "show tables", "tables"]
     baseScore := some (qMk 3 2) },
   { name := "describe_table", intents := [IntentCategory.schema_discovery]
     keywords := some ["describe", "columns", "structure"]
     requiredArgs := some ["tableName"], baseScore := some (qMk 3 2) },
   { name := "search_schema", intents := [IntentCategory.schema_discovery]
     keywords := some ["search", "find", "look up"]
     baseScore := some (qMk 3 2) },
   { name := "profile_table", intents := [IntentCategory.metadata]
     keywords := some ["profile", "sample", "distribution"]
     requiredArgs := some ["tableName"] },
   { name := "inspect_relationships"
     intents := [IntentCategory.metadata, IntentCategory.schema_discovery]
     keywords := some ["relationships", "foreign key", "references"]
     requiredArgs := some ["tableName"] },
   { name := "insert_data", intents := [IntentCategory.data_write]
     keywords := some ["insert", "add", "create record"]
     requiredArgs := some ["tableName", "data"], mutatesData := true },
   { name := "delete_data", intents := [IntentCategory.data_write]
     keywords := some ["delete", "remove", "purge"]
     requiredArgs := some ["tableName", "whereClause"], mutatesData := true },
   { name := "update_data", intents := [IntentCategory.data_write]
     keywords := some ["update", "modify", "fix"]
     requiredArgs := some ["tableName", "updates", "whereClause"]
     mutatesData := true },
   { name := "create_table", intents := [IntentCategory.schema_change]
     keywords := some ["create table", "new table"]
     requiredArgs := some ["tableName", "columns"], schemaChange := true },
   { name := "create_index", intents := [IntentCategory.schema_change]
     keywords := some ["create index", "add index"]
     requiredArgs := some ["tableName", "columns", "indexName"]
     schemaChange := true },
   { name := "drop_table", intents := [IntentCategory.schema_change]
     keywords := some ["drop table", "remove table", "delete table"]
     requiredArgs := some ["tableName"], schemaChange := true
     mutatesData := true },
   { name := "test_connection", intents := [IntentCategory.metadata]
     keywords := some ["test", "connection", "ping", "health"]
     baseScore := some (qMk 1 1) },
   { name := "explain_query", intents := [IntentCategory.metadata]
     keywords := some ["plan", "explain", "showplan", "estimate"]
     requiredArgs := some ["query"], baseScore := some (qMk 1 1) },
   { name := "list_databases"
     intents := [IntentCategory.schema_discovery, IntentCategory.metadata]
     keywords := some ["databases", "list databases", "show databases",
                       "dbs"]
     baseScore := some (qMk 3 2) },
   { name := "list_environments", intents := [IntentCategory.metadata]
     keywords := some ["environments", "list environments", "connections",
                       "configs"]
     baseScore := some (qMk 3 2) },
   { name := "validate_environment_config"
     intents := [IntentCategory.metadata]
     keywords := some ["validate", "check", "config", "configuration",
                       "health"]
     baseScore := some (qMk 3 2) }]

-- ───────────────────────────────────────────────────────────────────────────
-- Claim-side scoring description (for C6)
-- ───────────────────────────────────────────────────────────────────────────

/-- Number of declared keywords contained in the prompt. -/
def countKeywordHits (prompt : String) (kws : List String) : Nat :=
  (kws.filter (fun kw => strIncludes prompt kw)).length

/-- Number of required arguments present. -/
def countArgsPresent (args : Args) (l : List String) : Nat :=
  (l.filter (fun a => hasArgument args a)).length

/-- Number of required arguments missing. -/
def countArgsMissing (args : Args) (l : List String) : Nat :=
  (l.filter (fun a => !hasArgument args a)).length

/-- The closed-form score of the claim: base score plus five for intent
membership, three for a (truthy) preferred-name match, two per keyword
contained in the prompt, one per required argument present and minus one per
required argument missing; negative infinity for mutating or schema-changing
tools in mutation-disabled mode. -/
def claimedScore (allowMutations : Bool) (config : ToolRoutingConfig)
    (prompt : String) (toolArguments : Args) (inferredIntent : IntentCategory)
    (preferredToolName : Option String) : Score :=
  if (config.mutatesData || config.schemaChange) && !allowMutations then
    Score.negInf
  else
    Score.val (config.baseScore.getD (1 / 2)
      + (if inferredIntent ∈ config.intents then (5 : ℚ) else 0)
      + (match preferredToolName with
         | some p => if p ≠ "" ∧ config.name = p then (3 : ℚ) else 0
         | none => 0)
      + 2 * (countKeywordHits prompt (config.keywords.getD []) : ℚ)
      + (countArgsPresent toolArguments (config.requiredArgs.getD []) : ℚ)
      - (countArgsMissing toolArguments (config.requiredArgs.getD []) : ℚ))

/-- The winner predicate of the claim: b occurs in the candidate list, every
candidate registered strictly before it scores strictly less (so the
earliest-registered candidate wins ties), and no candidate scores more. -/
def isFirstMax (l : List RoutingCandidate) (b : RoutingCandidate) : Prop :=
  ∃ pre post, l = pre ++ b :: post ∧
    (∀ x ∈ pre, scoreLtB x.score b.score = true) ∧
    (∀ x ∈ l, scoreLeB x.score b.score = true)

-- ───────────────────────────────────────────────────────────────────────────
-- Connection lifecycle (EnvironmentManager.getConnection)
-- ───────────────────────────────────────────────────────────────────────────

/-- A pooled connection handle: identity plus its connected flag. -/
structure PoolHandle where
  id : Nat
  connected : Bool
deriving DecidableEq

/-- A cached registry entry: the pool and the optional token expiry
timestamp in milliseconds. -/
structure CachedConn where
  pool : PoolHandle
  expiresOn : Option Int := none
deriving DecidableEq

/-- The mutable connections map of the registry (a JavaScript Map keyed by
environment name). -/
structure ConnState where
  connections : String → Option CachedConn

/-- Observable connection side effects, in order of occurrence. -/
inductive ConnEffect
  | closedPool (id : Nat)
  | connectAttempt (envName : String)
deriving DecidableEq

/-- The cache-hit test of getConnection: the handle is connected and either
carries no expiry or expires more than two minutes from now. -/
def connValid (now : Int) (cached : CachedConn) : Bool :=
  cached.pool.connected &&
    (match cached.expiresOn with
     | none => true
     | some e => decide (e > now + 2 * 60 * 1000))

/-- EnvironmentManager.getConnection on a resolved environment, sequential
semantics.  newPool and newExpiry stand for what awaiting createSqlConfig
and sql.connect would produce on the reconnect path.  Returns the handle
given to the caller, the updated connections map and the effects (closing
the prior connected handle happens before the connect attempt, as in the
source). -/
def getConnection (now : Int) (newPool : PoolHandle) (newExpiry : Option Int)
    (st : ConnState) (env : EnvironmentConfig) :
    PoolHandle × ConnState × List ConnEffect :=
  let cached := st.connections env.name
  match cached with
  | some c =>
    if connValid now c then
      (c.pool, st, [])
    else
      let closeEffs :=
        if c.pool.connected then [ConnEffect.closedPool c.pool.id] else []
      (newPool,
       ⟨fun n => if n == env.name then some ⟨newPool, newExpiry⟩
                 else st.connections n⟩,
       closeEffs ++ [ConnEffect.connectAttempt env.name])
  | none =>
    (newPool,
     ⟨fun n => if n == env.name then some ⟨newPool, newExpiry⟩
               else st.connections n⟩,
     [ConnEffect.connectAttempt env.name])

-- ───────────────────────────────────────────────────────────────────────────
-- Concurrent getConnection: interleaving model (for C3)
-- ───────────────────────────────────────────────────────────────────────────

/-- Program counter of one concurrent getConnection caller, cut at the await
boundaries of the source: entry (the synchronous cache read and validity
check), building (suspended at await createSqlConfig, carrying the cache
snapshot read at entry), connectPending (sql.connect has been called — the
attempt is issued — and its resolution is awaited), and done. -/
inductive CPc
  | entry
  | building (cached : Option CachedConn)
  | connectPending
  | done (pool : PoolHandle)
deriving DecidableEq

/-- Global state of the concurrent model: the shared connections map, the
id counter for freshly connected pools, the ordered connect attempts and
pool closes, and each caller program counter. -/
structure CWorld where
  cache : String → Option CachedConn
  nextId : Nat
  attempts : List String
  closes : List Nat
  callers : List CPc

/-- One scheduler step: advance caller i of a getConnection(envName) race by
one await-delimited slice, mirroring the statements of the source.  At
entry the caller snapshots the cache and either returns the valid cached
handle or suspends; on resume it closes the snapshot handle when connected
and calls sql.connect (the attempt); when the connect resolves it receives a
fresh connected pool and overwrites the shared map entry. -/
def stepCaller (envName : String) (now : Int) (w : CWorld) (i : Nat) :
    CWorld :=
  match w.callers.get? i with
  | none => w
  | some CPc.entry =>
    let cached := w.cache envName
    (match cached with
     | some c =>
       if connValid now c then
         { w with callers := w.callers.set i (CPc.done c.pool) }
       else
         { w with callers := w.callers.set i (CPc.building (some c)) }
     | none => { w with callers := w.callers.set i (CPc.building none) })
  | some (CPc.building cached) =>
    let closes :=
      match cached with
      | some c => if c.pool.connected then w.closes ++ [c.pool.id]
                  else w.closes
      | none => w.closes
    { w with closes := closes
             attempts := w.attempts ++ [envName]
             callers := w.callers.set i CPc.connectPending }
  | some CPc.connectPending =>
    let pool : PoolHandle := { id := w.nextId, connected := true }
    { w with nextId := w.nextId + 1
             cache := fun n => if n == envName then
                 some { pool := pool, expiresOn := none }
               else w.cache n
             callers := w.callers.set i (CPc.done pool) }
  | some (CPc.done _) => w

/-- Run a schedule (a list of caller indices) from a world. -/
def runSched (envName : String) (now : Int) (sched : List Nat)
    (w : CWorld) : CWorld :=
  sched.foldl (stepCaller envName now) w

/-- The initial world of an N-caller race on an empty registry. -/
def initCWorld (n : Nat) : CWorld :=
  { cache := fun _ => none, nextId := 0, attempts := [], closes := []
    callers := List.replicate n CPc.entry }

-- ───────────────────────────────────────────────────────────────────────────
-- Concrete fixtures used by individual claim witnesses
-- ───────────────────────────────────────────────────────────────────────────

/-- Fixture for C1: an environment whose deny and allow lists share an
entry. -/
def c1Env : EnvironmentConfig :=
  { name := "e1", deniedTools := some ["read_data"]
    allowedTools := some ["read_data"] }

/-- Fixture for C1: a registry holding c1Env as the default. -/
def c1Mgr : EnvManagerState :=
  { environments := [c1Env], defaultEnvironment := some "e1" }

/-- Fixture for C2: an approval-requiring environment. -/
def c2Env : EnvironmentConfig :=
  { name := "e2", requireApproval := some true }

/-- Fixture for C2: a registry holding c2Env as the default. -/
def c2Mgr : EnvManagerState :=
  { environments := [c2Env], defaultEnvironment := some "e2" }

/-- Fixture for C8: a readonly environment literally named prod-db. -/
def c8ProdDb : EnvironmentConfig :=
  { name := "prod-db", readonly := some true }

/-- Fixture for C8: an environment named alpha-db (its name contains no
cluster keyword). -/
def c8AlphaDb : EnvironmentConfig :=
  { name := "alpha-db" }

/-- Fixture for C8: the list_tables registry entry, as registered in
toolRegistry. -/
def c8ListTablesCfg : ToolRoutingConfig :=
  { name := "list_tables", intents := [IntentCategory.schema_discovery]
    keywords := some ["list tables", "show tables", "tables"]
    baseScore := some (qMk 3 2) }

-- ───────────────────────────────────────────────────────────────────────────
-- Shared helper lemmas
-- ───────────────────────────────────────────────────────────────────────────

theorem qAdd_eq (a b : ℚ) : qAdd a b = a + b := by
  unfold qAdd
  rw [Rat.add_def]

theorem qSub_eq (a b : ℚ) : qSub a b = a - b := by
  unfold qSub
  rw [Rat.sub_def]

theorem listIncludes_iff (l : List String) (x : String) :
    listIncludes l x = true ↔ x ∈ l := by
  unfold listIncludes
  simp only [List.any_eq_true, beq_iff_eq]
  constructor
  · rintro ⟨y, hy, rfl⟩
    exact hy
  · intro hx
    exact ⟨x, hx, rfl⟩

-- ───────────────────────────────────────────────────────────────────────────
-- C5 and C10: database-level access checks
-- ───────────────────────────────────────────────────────────────────────────

/-- C5: for accessLevel database, isDatabaseAllowed is allowed exactly when
the requested database equals the configured one case-insensitively; for
accessLevel server, case-insensitive membership in deniedDatabases forces a
denial regardless of the allow list, and otherwise an allowedDatabases of
star or one containing the database case-insensitively yields allowed. -/
theorem c5_isDatabaseAllowed (env : EnvironmentConfig) (db : String) :
    (env.accessLevel = some AccessLevel.database →
      ((isDatabaseAllowedEnv env db).allowed = true ↔
        lowerStr db = lowerStr env.database)) ∧
    (env.accessLevel = some AccessLevel.server →
      (((env.deniedDatabases.getD []).any
          (fun x => lowerStr x == lowerStr db) = true →
        (isDatabaseAllowedEnv env db).allowed = false) ∧
       ((env.deniedDatabases.getD []).any
          (fun x => lowerStr x == lowerStr db) = false →
        (env.allowedDatabases = some AllowedDatabases.star ∨
          (∃ dbs, env.allowedDatabases = some (AllowedDatabases.list dbs) ∧
            dbs.any (fun x => lowerStr x == lowerStr db) = true)) →
        (isDatabaseAllowedEnv env db).allowed = true))) := by
  constructor
  · intro hdb
    simp only [isDatabaseAllowedEnv, hdb, Option.getD_some, if_pos rfl]
    by_cases h : lowerStr db = lowerStr env.database <;> simp [h]
  · intro hsrv
    constructor
    · intro hdeny
      simp [isDatabaseAllowedEnv, hsrv, hdeny]
    · intro hdeny hallow
      rcases hallow with hstar | ⟨dbs, hdbs, hmem⟩
      · simp [isDatabaseAllowedEnv, hsrv, hdeny, hstar]
      · by_cases hstar : env.allowedDatabases = some AllowedDatabases.star
        · simp [isDatabaseAllowedEnv, hsrv, hdeny, hstar]
        · simp [isDatabaseAllowedEnv, hsrv, hdeny, hstar, hdbs, hmem]

/-- Witness for C5 at a concrete database-level environment. -/
theorem c5_isDatabaseAllowed_witness :
    (({ name := "w5", database := "MainDB"
        accessLevel := some AccessLevel.database } :
        EnvironmentConfig).accessLevel = some AccessLevel.database) ∧
    ((isDatabaseAllowedEnv
        { name := "w5", database := "MainDB"
          accessLevel := some AccessLevel.database } "maindb").allowed = true ↔
      lowerStr "maindb" = lowerStr "MainDB") :=
  ⟨rfl, (c5_isDatabaseAllowed
    { name := "w5", database := "MainDB"
      accessLevel := some AccessLevel.database } "maindb").1 rfl⟩

/-- C10: a server-level environment whose allowedDatabases is absent or an
empty array allows every database that is not denied (default open). -/
theorem c10_server_default_open (env : EnvironmentConfig) (db : String)
    (hsrv : env.accessLevel = some AccessLevel.server)
    (hallow : env.allowedDatabases = none ∨
      env.allowedDatabases = some (AllowedDatabases.list []))
    (hdeny : (env.deniedDatabases.getD []).any
      (fun x => lowerStr x == lowerStr db) = false) :
    (isDatabaseAllowedEnv env db).allowed = true := by
  rcases hallow with h | h <;> simp [isDatabaseAllowedEnv, hsrv, hdeny, h]

/-- Witness for C10 at a concrete server-level environment. -/
theorem c10_server_default_open_witness :
    (({ name := "w10", accessLevel := some AccessLevel.server } :
        EnvironmentConfig).accessLevel = some AccessLevel.server) ∧
    (isDatabaseAllowedEnv
      { name := "w10", accessLevel := some AccessLevel.server }
      "AnyDb").allowed = true :=
  ⟨rfl, c10_server_default_open
    { name := "w10", accessLevel := some AccessLevel.server } "AnyDb" rfl
    (Or.inl rfl) (by decide)⟩

-- ───────────────────────────────────────────────────────────────────────────
-- C4: sequential getConnection cache behaviour
-- ───────────────────────────────────────────────────────────────────────────

/-- C4: when the cached handle is connected and carries no expiry or an
expiry more than two minutes away, getConnection returns the identical
cached handle with no effects and no state change; otherwise it performs
exactly one connect attempt, caches exactly the one replacement handle for
that environment (others untouched), closes the prior handle exactly when it
was connected, and hands the new pool to the caller. -/
theorem c4_getConnection (now : Int) (newPool : PoolHandle)
    (newExpiry : Option Int) (st : ConnState) (env : EnvironmentConfig) :
    (∀ c, st.connections env.name = some c → connValid now c = true →
      getConnection now newPool newExpiry st env = (c.pool, st, [])) ∧
    ((st.connections env.name = none ∨
      (∃ c, st.connections env.name = some c ∧ connValid now c = false)) →
      ((getConnection now newPool newExpiry st env).2.2.count
          (ConnEffect.connectAttempt env.name) = 1 ∧
       (getConnection now newPool newExpiry st env).1 = newPool ∧
       (getConnection now newPool newExpiry st env).2.1.connections env.name =
         some { pool := newPool, expiresOn := newExpiry } ∧
       (∀ n, n ≠ env.name →
         (getConnection now newPool newExpiry st env).2.1.connections n =
           st.connections n) ∧
       (∀ c, st.connections env.name = some c → c.pool.connected = true →
         (getConnection now newPool newExpiry st env).2.2 =
           [ConnEffect.closedPool c.pool.id,
            ConnEffect.connectAttempt env.name]) ∧
       ((st.connections env.name = none ∨
         (∃ c, st.connections env.name = some c ∧
            c.pool.connected = false)) →
         (getConnection now newPool newExpiry st env).2.2 =
           [ConnEffect.connectAttempt env.name]))) := by
  constructor
  · intro c hc hv
    simp [getConnection, hc, hv]
  · intro hmiss
    rcases hmiss with hnone | ⟨c, hc, hv⟩
    · refine ⟨?_, ?_, ?_, ?_, ?_, ?_⟩
      · simp [getConnection, hnone, List.count_cons]
      · simp [getConnection, hnone]
      · simp [getConnection, hnone]
      · intro n hn
        simp [getConnection, hnone, beq_iff_eq, hn]
      · intro c hc
        rw [hnone] at hc
        exact absurd hc (by simp)
      · intro _
        simp [getConnection, hnone]
    · refine ⟨?_, ?_, ?_, ?_, ?_, ?_⟩
      · by_cases hcon : c.pool.connected = true <;>
          simp [getConnection, hc, hv, hcon, List.count_cons,
            List.count_append, beq_iff_eq]
      · simp [getConnection, hc, hv]
      · simp [getConnection, hc, hv]
      · intro n hn
        simp [getConnection, hc, hv, beq_iff_eq, hn]
      · intro c2 hc2 hcon
        rw [hc] at hc2
        injection hc2 with h2
        subst h2
        simp [getConnection, hc, hv, hcon]
      · rintro (hnone2 | ⟨c2, hc2, hcon⟩)
        · rw [hnone2] at hc
          exact absurd hc (by simp)
        · rw [hc] at hc2
          injection hc2 with h2
          subst h2
          simp [getConnection, hc, hv, hcon]

/-- Witness for C4: a valid cached handle is returned unchanged, and a
reconnect from an empty cache issues exactly one attempt. -/
theorem c4_getConnection_witness :
    (({ connections := fun n => if n == "w4" then
          some { pool := { id := 7, connected := true }, expiresOn := none }
        else none } : ConnState).connections "w4" =
      some { pool := { id := 7, connected := true }, expiresOn := none }) ∧
    connValid 0 { pool := { id := 7, connected := true }
                  expiresOn := none } = true ∧
    getConnection 0 { id := 9, connected := true } none
        { connections := fun n => if n == "w4" then
            some { pool := { id := 7, connected := true }, expiresOn := none }
          else none }
        { name := "w4" } =
      ({ id := 7, connected := true },
       { connections := fun n => if n == "w4" then
           some { pool := { id := 7, connected := true }, expiresOn := none }
         else none },
       []) :=
  ⟨by decide, by decide,
    (c4_getConnection 0 { id := 9, connected := true } none
      { connections := fun n => if n == "w4" then
          some { pool := { id := 7, connected := true }, expiresOn := none }
        else none }
      { name := "w4" }).1
      { pool := { id := 7, connected := true }, expiresOn := none }
      (by decide) (by decide)⟩

-- ───────────────────────────────────────────────────────────────────────────
-- C3: concurrent getConnection has no single-flight
-- ───────────────────────────────────────────────────────────────────────────

/-- C3: in the interleaving model of two concurrent getConnection callers on
an empty cache (both running the synchronous entry slice before either
resumes), the schedule 0,1,0,0,1,1 issues two connect attempts, the two
callers finish with two different pools, the second overwrites the first in
the shared cache, and the first pool is never closed — refuting the claimed
single-flight collapse into one attempt with one shared outcome. -/
theorem c3_concurrent_double_connect :
    (runSched "e" 0 [0, 1, 0, 0, 1, 1] (initCWorld 2)).attempts =
      ["e", "e"] ∧
    (runSched "e" 0 [0, 1, 0, 0, 1, 1] (initCWorld 2)).callers =
      [CPc.done { id := 0, connected := true },
       CPc.done { id := 1, connected := true }] ∧
    (runSched "e" 0 [0, 1, 0, 0, 1, 1] (initCWorld 2)).cache "e" =
      some { pool := { id := 1, connected := true }, expiresOn := none } ∧
    (runSched "e" 0 [0, 1, 0, 0, 1, 1] (initCWorld 2)).closes = [] :=
  ⟨by decide, by decide, by decide, by decide⟩

-- ───────────────────────────────────────────────────────────────────────────
-- C1 and C2: the policy wrapper
-- ───────────────────────────────────────────────────────────────────────────

theorem wrapToolRun_eq_decision (mgr : EnvManagerState) (toolName : String)
    (rawArgs : Args) (connOutcome : Except String Unit)
    (runOutcome : Except String RunResult) (envConfig : EnvironmentConfig)
    (henv : getEnvironment mgr (getStrArg rawArgs "environment") =
      Except.ok envConfig) :
    wrapToolRun mgr toolName rawArgs connOutcome runOutcome =
      match firstSome (policyChecks (buildPolicy envConfig) toolName
          (confirmFlag rawArgs)) with
      | some e => { result := Except.ok (rejectResult e), effects := [] }
      | none => proceedOutcome envConfig toolName connOutcome runOutcome := by
  simp only [wrapToolRun, henv]
  by_cases h1 : (match (buildPolicy envConfig).deniedTools with
      | some l => !l.isEmpty && listIncludes l toolName
      | none => false) = true
  · simp [h1, policyChecks, firstSome, deniedCheck, rejectResult, errCode]
  · by_cases h2 : (match (buildPolicy envConfig).allowedTools with
        | some l => !l.isEmpty && !listIncludes l toolName
        | none => false) = true
    · simp [h1, h2, policyChecks, firstSome, deniedCheck, allowedCheck,
        rejectResult, errCode]
    · by_cases h3 : ((buildPolicy envConfig).readonly &&
          listIncludes MUTATING_TOOL_NAMES toolName) = true
      · simp [h1, h2, h3, policyChecks, firstSome, deniedCheck, allowedCheck,
          readonlyCheck, rejectResult, errCode]
      · by_cases h4 : ((buildPolicy envConfig).requireApproval &&
            !listIncludes APPROVAL_EXEMPT_TOOLS toolName &&
            !confirmFlag rawArgs) = true
        · simp [h1, h2, h3, h4, policyChecks, firstSome, deniedCheck,
            allowedCheck, readonlyCheck, approvalCheck, rejectResult, errCode]
        · simp [h1, h2, h3, h4, policyChecks, firstSome, deniedCheck,
            allowedCheck, readonlyCheck, approvalCheck, proceedOutcome]
          cases connOutcome with
          | error e => rfl
          | ok u => cases runOutcome <;> rfl

/-- C1: a wrapped call evaluates the four policy checks in the fixed order
deniedTools, allowedTools, readonly, requireApproval, and the first failing
check determines the structured rejection; in particular a tool name present
in both the deniedTools and allowedTools lists is always rejected as
TOOL_DENIED. -/
theorem c1_policy_order (mgr : EnvManagerState) (toolName : String)
    (rawArgs : Args) (connOutcome : Except String Unit)
    (runOutcome : Except String RunResult) (envConfig : EnvironmentConfig)
    (henv : getEnvironment mgr (getStrArg rawArgs "environment") =
      Except.ok envConfig) :
    (wrapToolRun mgr toolName rawArgs connOutcome runOutcome =
      match firstSome (policyChecks (buildPolicy envConfig) toolName
          (confirmFlag rawArgs)) with
      | some e => { result := Except.ok (rejectResult e), effects := [] }
      | none => proceedOutcome envConfig toolName connOutcome runOutcome) ∧
    (∀ dl al, envConfig.deniedTools = some dl →
      envConfig.allowedTools = some al → toolName ∈ dl → toolName ∈ al →
      firstSome (policyChecks (buildPolicy envConfig) toolName
        (confirmFlag rawArgs)) = some PolicyError.toolDenied) := by
  constructor
  · exact wrapToolRun_eq_decision mgr toolName rawArgs connOutcome runOutcome
      envConfig henv
  · intro dl al hdl hal hd ha
    have hinc : listIncludes dl toolName = true :=
      (listIncludes_iff dl toolName).2 hd
    have hne : dl.isEmpty = false := by
      cases dl with
      | nil => cases hd
      | cons a l => rfl
    simp [policyChecks, firstSome, deniedCheck, buildPolicy, hdl, hinc, hne]

/-- Witness for C1: with both lists holding read_data, the decision is
TOOL_DENIED. -/
theorem c1_policy_order_witness :
    (getEnvironment c1Mgr (getStrArg [] "environment") = Except.ok c1Env) ∧
    firstSome (policyChecks (buildPolicy c1Env) "read_data"
      (confirmFlag [])) = some PolicyError.toolDenied :=
  ⟨by rfl,
    (c1_policy_order c1Mgr "read_data" [] (Except.ok ())
      (Except.ok { success := true }) c1Env (by rfl)).2
      ["read_data"] ["read_data"] rfl rfl (by simp) (by simp)⟩

/-- C2: whenever a policy check rejects (TOOL_DENIED, TOOL_NOT_ALLOWED,
ENVIRONMENT_READONLY or APPROVAL_REQUIRED), the wrapped call returns a
structured failure result rather than throwing, performs no effect at all —
in particular it neither acquires a connection nor invokes the underlying
run — and so leaves all connection state unchanged. -/
theorem c2_rejection_no_effects (mgr : EnvManagerState) (toolName : String)
    (rawArgs : Args) (connOutcome : Except String Unit)
    (runOutcome : Except String RunResult) (envConfig : EnvironmentConfig)
    (e : PolicyError)
    (henv : getEnvironment mgr (getStrArg rawArgs "environment") =
      Except.ok envConfig)
    (hrej : firstSome (policyChecks (buildPolicy envConfig) toolName
      (confirmFlag rawArgs)) = some e) :
    (wrapToolRun mgr toolName rawArgs connOutcome runOutcome).effects = [] ∧
    (wrapToolRun mgr toolName rawArgs connOutcome runOutcome).result =
      Except.ok (rejectResult e) ∧
    (rejectResult e).success = false ∧
    (rejectResult e).error = some (errCode e) ∧
    (∀ envName, Effect.connect envName ∉
      (wrapToolRun mgr toolName rawArgs connOutcome runOutcome).effects) ∧
    (∀ t, Effect.runTool t ∉
      (wrapToolRun mgr toolName rawArgs connOutcome runOutcome).effects) := by
  have hw := wrapToolRun_eq_decision mgr toolName rawArgs connOutcome
    runOutcome envConfig henv
  rw [hrej] at hw
  refine ⟨by rw [hw], by rw [hw], ?_, ?_, ?_, ?_⟩
  · cases e <;> rfl
  · cases e <;> rfl
  · intro envName
    rw [hw]
    simp
  · intro t
    rw [hw]
    simp

/-- Witness for C2: an approval-requiring environment rejects an unconfirmed
insert_data with no effects. -/
theorem c2_rejection_no_effects_witness :
    (getEnvironment c2Mgr (getStrArg [] "environment") = Except.ok c2Env) ∧
    (firstSome (policyChecks (buildPolicy c2Env) "insert_data"
      (confirmFlag [])) = some PolicyError.approvalRequired) ∧
    (wrapToolRun c2Mgr "insert_data" [] (Except.ok ())
      (Except.ok { success := true })).effects = [] ∧
    (wrapToolRun c2Mgr "insert_data" [] (Except.ok ())
      (Except.ok { success := true })).result =
      Except.ok (rejectResult PolicyError.approvalRequired) :=
  ⟨by rfl, by rfl,
    (c2_rejection_no_effects c2Mgr "insert_data" [] (Except.ok ())
      (Except.ok { success := true }) c2Env PolicyError.approvalRequired
      (by rfl) (by rfl)).1,
    (c2_rejection_no_effects c2Mgr "insert_data" [] (Except.ok ())
      (Except.ok { success := true }) c2Env PolicyError.approvalRequired
      (by rfl) (by rfl)).2.1⟩

-- ───────────────────────────────────────────────────────────────────────────
-- C9: secret resolution
-- ───────────────────────────────────────────────────────────────────────────

theorem startsWithL_eq {xs p : List Char} (h : startsWithL xs p = true) :
    xs = p ++ xs.drop p.length := by
  induction p generalizing xs with
  | nil => simp
  | cons a p ih =>
    cases xs with
    | nil => simp [startsWithL] at h
    | cons x xs =>
      simp only [startsWithL, Bool.and_eq_true, beq_iff_eq] at h
      obtain ⟨hxa, hrest⟩ := h
      subst hxa
      simp only [List.length_cons, List.cons_append, List.drop_succ_cons]
      exact congrArg (x :: ·) (ih hrest)

theorem braceSplit_eq {cs name t2 : List Char}
    (h : braceSplit cs = some (name, t2)) : cs = name ++ cbrace :: t2 := by
  unfold braceSplit at h
  cases hdw : cs.dropWhile (fun d => !(d == cbrace)) with
  | nil => rw [hdw] at h; exact absurd h (by simp)
  | cons d rest =>
    rw [hdw] at h
    simp only [Option.some.injEq, Prod.mk.injEq] at h
    obtain ⟨hname, ht2⟩ := h
    have hl : 0 < (cs.dropWhile (fun d => !(d == cbrace))).length := by
      rw [hdw]; simp
    have hnp := List.dropWhile_get_zero_not (p := fun d => !(d == cbrace))
      cs hl
    have hget : (cs.dropWhile fun d => !(d == cbrace)).get ⟨0, hl⟩ = d := by
      simp [hdw]
    rw [hget] at hnp
    have hdeq : d = cbrace := by
      by_contra hcon
      apply hnp
      simp [hcon]
    calc cs
        = (cs.takeWhile fun d => !(d == cbrace)) ++
            (cs.dropWhile fun d => !(d == cbrace)) :=
          (List.takeWhile_append_dropWhile _ cs).symm
      _ = name ++ (d :: rest) := by rw [hname, hdw]
      _ = name ++ cbrace :: t2 := by rw [hdeq, ht2]

theorem parseSegs_step_ph {c : Char} {rest name t2 : List Char}
    (hsw : startsWithL (c :: rest) phOpen = true)
    (hbs : braceSplit (rest.drop 8) = some (name, t2))
    (hne : ¬ name = []) :
    parseSegs (c :: rest) = Seg.ph name :: parseSegs t2 := by
  rw [parseSegs.eq_def]
  simp only [hsw, if_true]
  split
  next nm tx heq =>
    rw [hbs] at heq
    simp only [Option.some.injEq, Prod.mk.injEq] at heq
    obtain ⟨h1, h2⟩ := heq
    subst h1
    subst h2
    simp [hne]
  next heq =>
    rw [hbs] at heq
    simp at heq

theorem parseSegs_step_lit {c : Char} {rest : List Char}
    (h : (∃ t2, braceSplit (rest.drop 8) = some ([], t2)) ∨
      braceSplit (rest.drop 8) = none ∨
      startsWithL (c :: rest) phOpen = false) :
    parseSegs (c :: rest) = Seg.lit c :: parseSegs rest := by
  rw [parseSegs.eq_def]
  by_cases hsw : startsWithL (c :: rest) phOpen = true
  · simp only [hsw, if_true]
    rcases h with ⟨t2, hbs⟩ | hbs | hswf
    · split
      next nm tx heq =>
        rw [hbs] at heq
        simp only [Option.some.injEq, Prod.mk.injEq] at heq
        obtain ⟨h1, h2⟩ := heq
        subst h1
        simp
      next heq =>
        rw [hbs] at heq
    · split
      next nm tx heq =>
        rw [hbs] at heq
        simp at heq
      next heq => rfl
    · exact absurd hsw (by simp [hswf])
  · simp [hsw]

theorem resolveSecretsAux_step_ph {env : String → Option String} {c : Char}
    {rest name t2 : List Char}
    (hsw : startsWithL (c :: rest) phOpen = true)
    (hbs : braceSplit (rest.drop 8) = some (name, t2))
    (hne : ¬ name = []) :
    resolveSecretsAux env (c :: rest) =
      (match env (String.mk name) with
       | some v => v.data ++ resolveSecretsAux env t2
       | none => phOpen ++ name ++ [cbrace] ++ resolveSecretsAux env t2) := by
  rw [resolveSecretsAux.eq_def]
  simp only [hsw, if_true]
  split
  next nm tx heq =>
    rw [hbs] at heq
    simp only [Option.some.injEq, Prod.mk.injEq] at heq
    obtain ⟨h1, h2⟩ := heq
    subst h1
    subst h2
    simp [hne]
  next heq =>
    rw [hbs] at heq
    simp at heq

theorem resolveSecretsAux_step_lit {env : String → Option String} {c : Char}
    {rest : List Char}
    (h : (∃ t2, braceSplit (rest.drop 8) = some ([], t2)) ∨
      braceSplit (rest.drop 8) = none ∨
      startsWithL (c :: rest) phOpen = false) :
    resolveSecretsAux env (c :: rest) = c :: resolveSecretsAux env rest := by
  rw [resolveSecretsAux.eq_def]
  by_cases hsw : startsWithL (c :: rest) phOpen = true
  · simp only [hsw, if_true]
    rcases h with ⟨t2, hbs⟩ | hbs | hswf
    · split
      next nm tx heq =>
        rw [hbs] at heq
        simp only [Option.some.injEq, Prod.mk.injEq] at heq
        obtain ⟨h1, h2⟩ := heq
        subst h1
        simp
      next heq =>
        rw [hbs] at heq
    · split
      next nm tx heq =>
        rw [hbs] at heq
        simp at heq
      next heq => rfl
    · exact absurd hsw (by simp [hswf])
  · simp [hsw]

theorem parseSegs_render (cs : List Char) :
    ((parseSegs cs).map renderSeg).flatten = cs := by
  induction cs using parseSegs.induct with
  | case1 => rw [parseSegs.eq_def]; rfl
  | case2 c rest hsw name t2 hbs hne ih =>
    have hnil : name = [] := by simpa using hne
    subst hnil
    rw [parseSegs_step_lit (Or.inl ⟨t2, hbs⟩)]
    simp [renderSeg, ih]
  | case3 c rest hsw name t2 hbs hne ih =>
    have hnil : ¬ name = [] := by simpa using hne
    rw [parseSegs_step_ph hsw hbs hnil]
    have h1 := startsWithL_eq hsw
    have h2 : (c :: rest).drop phOpen.length = rest.drop 8 := rfl
    have h3 := braceSplit_eq hbs
    rw [h2, h3] at h1
    simp only [List.map_cons, List.flatten_cons, renderSeg, ih, h1]
    simp
  | case4 c rest hsw hbs ih =>
    rw [parseSegs_step_lit (Or.inr (Or.inl hbs))]
    simp [renderSeg, ih]
  | case5 c rest hsw ih =>
    have hsw2 : startsWithL (c :: rest) phOpen = false := by
      simpa using hsw
    rw [parseSegs_step_lit (Or.inr (Or.inr hsw2))]
    simp [renderSeg, ih]

theorem resolveSecretsAux_eq (env : String → Option String) (cs : List Char) :
    resolveSecretsAux env cs =
      ((parseSegs cs).map (resolveSeg env)).flatten := by
  induction cs using parseSegs.induct with
  | case1 => rw [parseSegs.eq_def, resolveSecretsAux.eq_def]; rfl
  | case2 c rest hsw name t2 hbs hne ih =>
    have hnil : name = [] := by simpa using hne
    subst hnil
    rw [parseSegs_step_lit (Or.inl ⟨t2, hbs⟩),
      resolveSecretsAux_step_lit (Or.inl ⟨t2, hbs⟩)]
    simp [resolveSeg, ih]
  | case3 c rest hsw name t2 hbs hne ih =>
    have hnil : ¬ name = [] := by simpa using hne
    rw [parseSegs_step_ph hsw hbs hnil,
      resolveSecretsAux_step_ph hsw hbs hnil]
    cases henv : env (String.mk name) with
    | some v => simp [resolveSeg, henv, ih]
    | none => simp [resolveSeg, henv, ih]
  | case4 c rest hsw hbs ih =>
    rw [parseSegs_step_lit (Or.inr (Or.inl hbs)),
      resolveSecretsAux_step_lit (Or.inr (Or.inl hbs))]
    simp [resolveSeg, ih]
  | case5 c rest hsw ih =>
    have hsw2 : startsWithL (c :: rest) phOpen = false := by
      simpa using hsw
    rw [parseSegs_step_lit (Or.inr (Or.inr hsw2)),
      resolveSecretsAux_step_lit (Or.inr (Or.inr hsw2))]
    simp [resolveSeg, ih]

/-- C9: every configuration value decomposes into literal characters and the
placeholders found by the left-to-right scan (first conjunct: the
decomposition reconstructs the value exactly, so nothing else is touched),
and resolveSecrets rewrites the value segmentwise: a placeholder whose name
is set in the process environment becomes that value, a placeholder whose
name is unset stays verbatim (never the empty string), and every literal
character is unchanged. -/
theorem c9_resolve_secrets (env : String → Option String) (cs : List Char) :
    ((parseSegs cs).map renderSeg).flatten = cs ∧
    resolveSecretsAux env cs = ((parseSegs cs).map (resolveSeg env)).flatten ∧
    resolveSecrets env (some (String.mk cs)) =
      some (String.mk (((parseSegs cs).map (resolveSeg env)).flatten)) := by
  refine ⟨parseSegs_render cs, resolveSecretsAux_eq env cs, ?_⟩
  cases cs with
  | nil =>
    rw [parseSegs.eq_def]
    rfl
  | cons c rest =>
    show (if String.mk (c :: rest) == "" then some (String.mk (c :: rest))
      else some (String.mk (resolveSecretsAux env
        (String.mk (c :: rest)).data))) = _
    have hne : (String.mk (c :: rest) == "") = false := by
      simp [String.ext_iff]
    rw [hne]
    simp only [Bool.false_eq_true, if_false]
    rw [show resolveSecretsAux env (String.mk (c :: rest)).data =
      resolveSecretsAux env (c :: rest) from rfl]
    rw [resolveSecretsAux_eq env (c :: rest)]

-- ───────────────────────────────────────────────────────────────────────────
-- C7: intent classification
-- ───────────────────────────────────────────────────────────────────────────

/-- Counterexample to C7 as stated: a prompt matching no detector keyword,
with no query/sql argument but a non-empty tablePattern argument, is
classified schema_discovery by the code, while the claim (detectors, then
SQL verb, otherwise data_read) yields data_read. -/
theorem c7_intent_counterexample :
    inferIntent "zzz" [("tablePattern", ArgValue.str "a")] =
      IntentCategory.schema_discovery ∧
    claimIntentC7 "zzz" [("tablePattern", ArgValue.str "a")] =
      IntentCategory.data_read ∧
    IntentCategory.schema_discovery ≠ IntentCategory.data_read :=
  ⟨by decide, by decide, by decide⟩

/-- C7 (amended): intent classification runs the keyword detectors in the
fixed priority order schema_change, data_write, metadata, schema_discovery,
data_read and returns the first hit; when none match, the leading SQL verb
of an embedded query/sql argument determines the intent; otherwise a truthy
tablePattern or columnPattern argument yields schema_discovery, and only
then does the result default to data_read. -/
theorem c7_intent_amended (prompt : String) (args : Args) :
    inferIntent prompt args = amendedIntentC7 prompt args := by
  unfold inferIntent amendedIntentC7
  cases hfd : findDetector prompt intentDetectors with
  | some i => rfl
  | none =>
    cases hsn : extractSqlSnippet args with
    | none => rfl
    | some s =>
      simp only [Option.bind]
      by_cases h0 : (s == "") = true
      · simp [sqlVerbIntent, h0]
      · have h0f : (s == "") = false := by simpa using h0
        by_cases hsel : strStartsWith s "select" = true <;>
          by_cases hupd : strStartsWith s "update" = true <;>
          by_cases hdel : strStartsWith s "delete" = true <;>
          by_cases hins : strStartsWith s "insert" = true <;>
          by_cases hcre : strStartsWith s "create" = true <;>
          by_cases hdrp : strStartsWith s "drop" = true <;>
          simp [sqlVerbIntent, h0f, hsel, hupd, hdel, hins, hcre, hdrp]

-- ───────────────────────────────────────────────────────────────────────────
-- C6: scoring and selection
-- ───────────────────────────────────────────────────────────────────────────

theorem qMk_eq_div (n : Int) (d : Nat) : qMk n d = (n : ℚ) / (d : ℚ) := by
  rw [qMk, Rat.mkRat_eq_divInt, Rat.divInt_eq_div]
  norm_cast

theorem scoreLtB_trans {a b c : Score} (h1 : scoreLtB a b = true)
    (h2 : scoreLtB b c = true) : scoreLtB a c = true := by
  cases a <;> cases b <;> cases c <;>
    simp [scoreLtB] at * <;> exact lt_trans h1 h2

theorem scoreLeB_iff_not_lt {a b : Score} :
    scoreLeB a b = true ↔ ¬ scoreLtB b a = true := by
  unfold scoreLeB
  cases hl : scoreLtB b a <;> simp

theorem scoreLtB_of_le_of_lt {a b c : Score} (h1 : scoreLeB a b = true)
    (h2 : scoreLtB b c = true) : scoreLtB a c = true := by
  rw [scoreLeB_iff_not_lt] at h1
  cases a <;> cases b <;> cases c <;> simp [scoreLtB] at *
  exact lt_of_le_of_lt h1 h2

theorem scoreLeB_of_lt {a b : Score} (h : scoreLtB a b = true) :
    scoreLeB a b = true := by
  rw [scoreLeB_iff_not_lt]
  cases a <;> cases b <;> simp [scoreLtB] at * <;> linarith

theorem scoreLeB_refl (a : Score) : scoreLeB a a = true := by
  rw [scoreLeB_iff_not_lt]
  cases a <;> simp [scoreLtB]

theorem foldl_kw_count (prompt : String) (l : List String) (init : ℚ) :
    l.foldl (fun s kw => if strIncludes prompt kw then qAdd s (qMk 2 1)
      else s) init = init + 2 * (countKeywordHits prompt l : ℚ) := by
  induction l generalizing init with
  | nil => simp [countKeywordHits]
  | cons kw l ih =>
    by_cases h : strIncludes prompt kw = true
    · simp only [List.foldl_cons, h, if_true, ih]
      unfold countKeywordHits
      simp only [List.filter_cons, h, if_true, List.length_cons]
      rw [qAdd_eq, qMk, Rat.mkRat_one]
      push_cast
      ring
    · have hf : strIncludes prompt kw = false := by simpa using h
      simp only [List.foldl_cons, hf, Bool.false_eq_true, if_false, ih]
      unfold countKeywordHits
      simp only [List.filter_cons, hf, Bool.false_eq_true, if_false]

theorem foldl_args_count (args : Args) (l : List String) (init : ℚ) :
    l.foldl (fun s a => if hasArgument args a then qAdd s (qMk 1 1)
      else qSub s (qMk 1 1)) init =
    init + (countArgsPresent args l : ℚ) - (countArgsMissing args l : ℚ) := by
  induction l generalizing init with
  | nil => simp [countArgsPresent, countArgsMissing]
  | cons a l ih =>
    by_cases h : hasArgument args a = true
    · simp only [List.foldl_cons, h, if_true, ih]
      unfold countArgsPresent countArgsMissing
      simp only [List.filter_cons, h, Bool.not_true, Bool.false_eq_true,
        if_true, if_false, List.length_cons]
      rw [qAdd_eq, qMk, Rat.mkRat_one]
      push_cast
      ring
    · have hf : hasArgument args a = false := by simpa using h
      simp only [List.foldl_cons, hf, Bool.false_eq_true, if_false, ih]
      unfold countArgsPresent countArgsMissing
      simp only [List.filter_cons, hf, Bool.not_false, if_true,
        Bool.false_eq_true, if_false, List.length_cons]
      rw [qSub_eq, qMk, Rat.mkRat_one]
      push_cast
      ring

theorem scoreTool_formula (am : Bool) (cfg : ToolRoutingConfig)
    (prompt : String) (args : Args) (intent : IntentCategory)
    (pref : Option String) :
    (scoreTool am cfg prompt args intent pref).score =
      claimedScore am cfg prompt args intent pref ∧
    (scoreTool am cfg prompt args intent pref).config = cfg := by
  constructor
  · unfold scoreTool claimedScore
    by_cases hm : ((cfg.mutatesData || cfg.schemaChange) && !am) = true
    · simp [hm]
    · have hmf : ((cfg.mutatesData || cfg.schemaChange) && !am) = false := by
        simpa using hm
      simp only [hmf, Bool.false_eq_true, if_false, Score.val.injEq]
      rw [foldl_args_count, foldl_kw_count]
      have hbase : cfg.baseScore.getD (qMk 1 2) =
          cfg.baseScore.getD (1 / 2) := by
        have hhalf : qMk 1 2 = (1 : ℚ) / 2 := by
          rw [qMk_eq_div]
          norm_num
        cases cfg.baseScore <;> simp [hhalf]
      rw [hbase]
      by_cases hi : intent ∈ cfg.intents
      · cases pref with
        | none => simp [hi, qAdd_eq, qMk, Rat.mkRat_one]
        | some p =>
          by_cases hp : p ≠ "" ∧ cfg.name = p
          · simp [hi, hp, qAdd_eq, qMk, Rat.mkRat_one]
          · simp [hi, hp, qAdd_eq, qMk, Rat.mkRat_one]
      · cases pref with
        | none => simp [hi, qAdd_eq, qMk, Rat.mkRat_one]
        | some p =>
          by_cases hp : p ≠ "" ∧ cfg.name = p
          · simp [hi, hp, qAdd_eq, qMk, Rat.mkRat_one]
          · simp [hi, hp, qAdd_eq, qMk, Rat.mkRat_one]
  · unfold scoreTool
    by_cases hm : ((cfg.mutatesData || cfg.schemaChange) && !am) = true <;>
      simp [hm]

theorem foldl_best_spec (rest : List RoutingCandidate)
    (acc : RoutingCandidate) :
    (rest.foldl (fun best x => if scoreLtB best.score x.score then x
        else best) acc = acc ∧
      ∀ x ∈ rest, scoreLeB x.score acc.score = true) ∨
    (∃ pre post, rest = pre ++ (rest.foldl
        (fun best x => if scoreLtB best.score x.score then x else best)
        acc) :: post ∧
      scoreLtB acc.score (rest.foldl
        (fun best x => if scoreLtB best.score x.score then x else best)
        acc).score = true ∧
      (∀ x ∈ pre, scoreLtB x.score (rest.foldl
        (fun best x => if scoreLtB best.score x.score then x else best)
        acc).score = true) ∧
      (∀ x ∈ post, scoreLeB x.score (rest.foldl
        (fun best x => if scoreLtB best.score x.score then x else best)
        acc).score = true)) := by
  induction rest generalizing acc with
  | nil => exact Or.inl ⟨rfl, by simp⟩
  | cons x rest ih =>
    by_cases hx : scoreLtB acc.score x.score = true
    · simp only [List.foldl_cons, hx, if_true]
      rcases ih x with ⟨heq, hall⟩ | ⟨pre, post, hsplit, hlt, hpre, hpost⟩
      · refine Or.inr ⟨[], rest, ?_, ?_, ?_, ?_⟩
        · simp [heq]
        · rw [heq]; exact hx
        · intro y hy; cases hy
        · intro y hy
          rw [heq]
          exact hall y hy
      · refine Or.inr ⟨x :: pre, post, ?_, ?_, ?_, ?_⟩
        · rw [List.cons_append, ← hsplit]
        · exact scoreLtB_trans hx hlt
        · intro y hy
          rcases List.mem_cons.mp hy with rfl | hy2
          · exact hlt
          · exact hpre y hy2
        · exact hpost
    · have hxf : scoreLtB acc.score x.score = false := by simpa using hx
      have hxle : scoreLeB x.score acc.score = true := by
        rw [scoreLeB_iff_not_lt, hxf]
        simp
      simp only [List.foldl_cons, hxf, Bool.false_eq_true, if_false]
      rcases ih acc with ⟨heq, hall⟩ | ⟨pre, post, hsplit, hlt, hpre, hpost⟩
      · refine Or.inl ⟨heq, ?_⟩
        intro y hy
        rcases List.mem_cons.mp hy with rfl | hy2
        · exact hxle
        · exact hall y hy2
      · refine Or.inr ⟨x :: pre, post, ?_, hlt, ?_, hpost⟩
        · rw [List.cons_append, ← hsplit]
        · intro y hy
          rcases List.mem_cons.mp hy with rfl | hy2
          · exact scoreLtB_of_le_of_lt hxle hlt
          · exact hpre y hy2

theorem selectBest_isFirstMax (l : List RoutingCandidate)
    (b : RoutingCandidate) (h : selectBest l = some b) : isFirstMax l b := by
  cases l with
  | nil => exact absurd h (by simp [selectBest])
  | cons c rest =>
    have hb : rest.foldl (fun best x => if scoreLtB best.score x.score then x
        else best) c = b := by
      have h2 := h
      unfold selectBest at h2
      simpa using h2
    rcases foldl_best_spec rest c with ⟨heq, hall⟩ |
      ⟨pre, post, hsplit, hlt, hpre, hpost⟩
    · have hbc : b = c := by rw [← hb, heq]
      subst hbc
      refine ⟨[], rest, by simp, by simp, ?_⟩
      intro y hy
      rcases List.mem_cons.mp hy with rfl | hy2
      · exact scoreLeB_refl _
      · exact hall y hy2
    · rw [hb] at hsplit hlt hpre hpost
      refine ⟨c :: pre, post, ?_, ?_, ?_⟩
      · rw [List.cons_append, ← hsplit]
      · intro y hy
        rcases List.mem_cons.mp hy with rfl | hy2
        · exact hlt
        · exact hpre y hy2
      · intro y hy
        rcases List.mem_cons.mp hy with rfl | hy2
        · exact scoreLeB_of_lt hlt
        · rw [hsplit] at hy2
          rcases List.mem_append.mp hy2 with hy3 | hy3
          · exact scoreLeB_of_lt (hpre y hy3)
          · rcases List.mem_cons.mp hy3 with rfl | hy4
            · exact scoreLeB_refl _
            · exact hpost y hy4

theorem route_no_match (environments : List EnvironmentConfig)
    (am rc : Bool) (tools : List ToolRoutingConfig) (params : RouteParams)
    (run : String → Args → Except String RunResult)
    (hp : (routePrompt params == "") = false)
    (h : selectBest (routeCandidates environments am tools params) = none ∨
      ∃ b, selectBest (routeCandidates environments am tools params) =
        some b ∧ scoreLeB b.score (Score.val 0) = true) :
    route environments am rc tools params run =
      ({ success := false, error := some "NO_TOOL_MATCH" }, []) := by
  unfold route
  rw [hp]
  simp only [Bool.false_eq_true, if_false]
  rcases h with hnone | ⟨b, hsome, hle⟩
  · rw [hnone]
  · rw [hsome]
    simp [hle]

/-- C6: every eligible operation scores base score plus five for intent
membership, three for a preferred-name match, two per declared keyword in
the prompt, plus one per required argument present and minus one per missing
(claimedScore); in mutation-disabled mode mutating or schema-changing
operations score negative infinity; the selected winner is the
first-registered candidate of maximal score (ties keep registration order);
and when no candidate wins with a positive score the router answers
NO_TOOL_MATCH and executes nothing. -/
theorem c6_scoring :
    (∀ am cfg prompt args intent pref,
      (scoreTool am cfg prompt args intent pref).score =
        claimedScore am cfg prompt args intent pref ∧
      (scoreTool am cfg prompt args intent pref).config = cfg) ∧
    (∀ l b, selectBest l = some b → isFirstMax l b) ∧
    (∀ environments am rc tools params run,
      (routePrompt params == "") = false →
      (selectBest (routeCandidates environments am tools params) = none ∨
        ∃ b, selectBest (routeCandidates environments am tools params) =
          some b ∧ scoreLeB b.score (Score.val 0) = true) →
      route environments am rc tools params run =
        ({ success := false, error := some "NO_TOOL_MATCH" }, [])) :=
  ⟨scoreTool_formula, selectBest_isFirstMax, route_no_match⟩

/-- Witness for C6: an unmatchable prompt with an empty registry routes to
NO_TOOL_MATCH with nothing executed, and a singleton candidate list selects
its own element. -/
theorem c6_scoring_witness :
    ((routePrompt { prompt := "qqq" } == "") = false) ∧
    (selectBest (routeCandidates [] true [] { prompt := "qqq" }) = none) ∧
    route [] true true [] { prompt := "qqq" }
      (fun _ _ => Except.ok { success := true }) =
      ({ success := false, error := some "NO_TOOL_MATCH" }, []) :=
  ⟨by decide, by decide,
    c6_scoring.2.2 [] true true [] { prompt := "qqq" }
      (fun _ _ => Except.ok { success := true }) (by decide)
      (Or.inl (by decide))⟩

-- ───────────────────────────────────────────────────────────────────────────
-- C8: environment inference
-- ───────────────────────────────────────────────────────────────────────────

/-- Counterexample to C8 as stated: under the claimed reading — a dash in an
environment name is treated as optional whitespace — the name alpha-db
matches the prompt token alphadb (the whitespace dropped), yet the code,
which matches the name either verbatim or with the dash as exactly one
whitespace character, infers no environment at all for that prompt. -/
theorem c8_environment_counterexample :
    claimNameScanC8 [c8AlphaDb] "use alphadb today" = some "alpha-db" ∧
    inferEnvironment [c8AlphaDb] "use alphadb today" = none :=
  ⟨by decide, by decide⟩

/-- C8 (amended): the router first scans the prompt for any registered
environment name as a word-boundary token, matching the name either verbatim
or with each dash replaced by exactly one whitespace character, and the
first matching environment wins; only when no name matches does it consult
the keyword-cluster table and return the first registered environment whose
lowercased name contains the cluster key.  In particular the prompt
"show tables in prod" with the registered readonly environment prod-db
resolves (through the prod cluster) to prod-db, the router selects the
schema-discovery operation list_tables with score 21/2 > 0, and the call
executes with no confirmation required. -/
theorem c8_environment_inference :
    (∀ envs prompt (e : EnvironmentConfig),
      envs.find? (fun env =>
        regexSearchWB (String.data prompt) (patLit env.name) ||
        regexSearchWB (String.data prompt) (patWs env.name)) = some e →
      inferEnvironment envs prompt = some e.name) ∧
    (∀ envs prompt,
      envs.find? (fun env =>
        regexSearchWB (String.data prompt) (patLit env.name) ||
        regexSearchWB (String.data prompt) (patWs env.name)) = none →
      inferEnvironment envs prompt = clusterScan envs prompt envKeywords) ∧
    (inferEnvironment [c8ProdDb]
      (lowerStr (trimStr "show tables in prod")) = some "prod-db") ∧
    (route [c8ProdDb] true true toolRegistry
      { prompt := "show tables in prod" }
      (fun _ _ => Except.ok { success := true }) =
      ({ success := true, routedTool := some "list_tables"
         intent := some IntentCategory.schema_discovery
         selectedEnvironment := some "prod-db" }, ["list_tables"])) ∧
    (selectBest (routeCandidates [c8ProdDb] true toolRegistry
        { prompt := "show tables in prod" }) =
      some { config := c8ListTablesCfg, score := Score.val (qMk 21 2) } ∧
     scoreLtB (Score.val 0) (Score.val (qMk 21 2)) = true) := by
  refine ⟨?_, ?_, by decide, by decide, by decide, by decide⟩
  · intro envs prompt e hfind
    unfold inferEnvironment
    rw [hfind]
  · intro envs prompt hfind
    unfold inferEnvironment
    rw [hfind]

/-- Witness for C8: a prompt containing the name prod-db verbatim resolves
through the name scan, and a prompt matching no name falls through to the
cluster scan. -/
theorem c8_environment_inference_witness :
    ([c8ProdDb].find? (fun env =>
      regexSearchWB (String.data "use prod-db now") (patLit env.name) ||
      regexSearchWB (String.data "use prod-db now") (patWs env.name)) =
      some c8ProdDb) ∧
    inferEnvironment [c8ProdDb] "use prod-db now" = some "prod-db" ∧
    ([c8AlphaDb].find? (fun env =>
      regexSearchWB (String.data "use alphadb today") (patLit env.name) ||
      regexSearchWB (String.data "use alphadb today") (patWs env.name)) =
      none) ∧
    inferEnvironment [c8AlphaDb] "use alphadb today" =
      clusterScan [c8AlphaDb] "use alphadb today" envKeywords :=
  ⟨by decide,
    c8_environment_inference.1 [c8ProdDb] "use prod-db now" c8ProdDb
      (by decide),
    by decide,
    c8_environment_inference.2.1 [c8AlphaDb] "use alphadb today"
      (by decide)⟩

end MssqlMcp
